import Mathlib

/-!
Verification development for the video-hosting backend's video pipeline
(upload, transcode worker, range streaming, thumbnail and delete endpoints).

Python strings are modelled as `List Char`, byte sequences as `List Nat`,
the blob store (upload directory) as an association list from filename to
content, and the metadata store as a list of `Video` records.  Each
definition is a direct translation of the corresponding function in
`backend/app` (`api/routes/videos.py`, `tasks/video.py`, `crud.py`,
`models.py`); external effects (ffmpeg subprocess exit status, generated
UUIDs, the wall clock at creation time) are parameters.
-/

abbrev Str := List Char

abbrev Bytes := List Nat

/-- Python `str.strip()` (ASCII whitespace, as used on the Range header). -/
def pyStrip (s : Str) : Str :=
  ((s.dropWhile Char.isWhitespace).reverse.dropWhile Char.isWhitespace).reverse

/-- Python `str.lower()`. -/
def pyLower (s : Str) : Str := s.map Char.toLower

/-- Python `str.split(sep)` for a one-character separator: `"a-b".split("-") = ["a","b"]`,
`"".split("-") = [""]`, `"-".split("-") = ["",""]`. -/
def pySplit (sep : Char) : Str → List Str
  | [] => [[]]
  | c :: cs =>
    match pySplit sep cs with
    | [] => [[]]
    | h :: t => if c = sep then [] :: h :: t else (c :: h) :: t

/-- Decimal digit test (`'0'` to `'9'`). -/
def isDig (c : Char) : Bool := 48 ≤ c.toNat && c.toNat ≤ 57

/-- The ten decimal digit characters. -/
def DIGITS : Str := "0123456789".toList

/-- Digit character for a value below ten. -/
def digitChar (n : Nat) : Char :=
  match n with
  | 0 => '0' | 1 => '1' | 2 => '2' | 3 => '3' | 4 => '4'
  | 5 => '5' | 6 => '6' | 7 => '7' | 8 => '8' | _ => '9'

/-- Numeric value of a digit character. -/
def digitVal (c : Char) : Nat := c.toNat - 48

/-- Value of a decimal digit string, most significant digit first. -/
def decValue (s : Str) : Nat := s.foldl (fun a c => 10 * a + digitVal c) 0

/-- Parse a nonempty all-digit string (the unsigned core of Python `int`). -/
def pyNat (s : Str) : Option Nat :=
  if s.isEmpty then none
  else if s.all isDig then some (decValue s) else none

/-- Python `int(s)`: strips whitespace, allows one leading sign, then a
nonempty digit string; anything else raises `ValueError` (here `none`). -/
def pyInt (s : Str) : Option Int :=
  let t := pyStrip s
  if t.isEmpty then none
  else if t.headD ' ' = '-' then (pyNat (t.drop 1)).map (fun n => -(n : Int))
  else if t.headD ' ' = '+' then (pyNat (t.drop 1)).map (fun n => (n : Int))
  else (pyNat t).map (fun n => (n : Int))

/-- Decimal rendering, fuel-indexed so that it is structurally recursive. -/
def natToDecAux : Nat → Nat → Str
  | 0, _ => []
  | fuel + 1, n =>
    if n < 10 then [digitChar n]
    else natToDecAux fuel (n / 10) ++ [digitChar (n % 10)]

/-- Decimal rendering of a natural number (Python `str(n)` for `n ≥ 0`). -/
def natToDec (n : Nat) : Str := natToDecAux (n + 1) n

/-- Decimal rendering of an integer (Python `str(i)`). -/
def intToDec (i : Int) : Str :=
  if i < 0 then '-' :: natToDec (-i).toNat else natToDec i.toNat

/-- Rendering of an optional range bound: omitted bounds render as the
empty string inside `bytes=start-end`. -/
def optDec : Option Nat → Str
  | none => []
  | some n => natToDec n

/-- Index of the last `'.'` in a filename, if any. -/
def lastDotIdx? (fn : Str) : Option Nat :=
  (fn.reverse.findIdx? (fun c => c == '.')).map (fun i => fn.length - 1 - i)

/-- Python `Path(filename).stem`: the name up to its last `'.'`, except that a
lone leading dot is not an extension separator.  (The repository only feeds
names of the shape `uuid.ext`, where this is exact.) -/
def pyStem (fn : Str) : Str :=
  match lastDotIdx? fn with
  | some i => if i = 0 then fn else fn.take i
  | none => fn

/-- The canonical container extension the worker targets. -/
def mp4Ext : Str := ".mp4".toList

/-- The worker's `output_filename = f"(stem).mp4"`. -/
def outputName (fn : Str) : Str := pyStem fn ++ mp4Ext

/-- The worker's generated thumbnail name `f"(stem)_auto.jpg"`. -/
def autoThumbName (outFn : Str) : Str := pyStem outFn ++ "_auto.jpg".toList

/-- The `Video` row of `models.py` (fields the pipeline touches). -/
structure Video where
  id : Nat
  title : String
  description : Option String := none
  filename : Str
  thumbnail_filename : Option Str := none
  owner_id : Nat
  is_private : Bool := false
  is_processed : Bool := false
  category_id : Option Nat := none
  created_at : Nat
  updated_at : Nat
deriving DecidableEq

/-- The blob store: upload-directory contents as filename/content pairs. -/
abbrev FS := List (Str × Bytes)

/-- File lookup (`open` / `Path.exists` / `os.path.getsize` source). -/
def fsGet (fs : FS) (fn : Str) : Option Bytes :=
  (fs.find? (fun p => p.1 == fn)).map (fun p => p.2)

/-- The set of filenames present on disk. -/
def fsNames (fs : FS) : List Str := fs.map (fun p => p.1)

/-- File removal, `os.remove` / `unlink(missing_ok=True)` as set deletion. -/
def fsRemove (fs : FS) (fn : Str) : FS := fs.filter (fun p => p.1 != fn)

/-- `session.get(Video, video_id)` over the record list. -/
def dbGet (db : List Video) (vid : Nat) : Option Video :=
  db.find? (fun v => v.id == vid)

/-- The worker's first commit: `select(Video).where(filename == old).first()`,
then `video.filename = new; commit()` — only the first match is updated. -/
def dbUpdateFilenameFirst : List Video → Str → Str → List Video
  | [], _, _ => []
  | v :: rest, old, new =>
    if v.filename == old then { v with filename := new } :: rest
    else v :: dbUpdateFilenameFirst rest old new

/-- The worker's second commit: set `thumbnail_filename` on the first record
whose `filename` equals the output filename. -/
def dbSetThumbFirst : List Video → Str → Str → List Video
  | [], _, _ => []
  | v :: rest, fn, t =>
    if v.filename == fn then { v with thumbnail_filename := some t } :: rest
    else v :: dbSetThumbFirst rest fn t

/-- Observable steps of one `process_video` job. -/
inductive WEvent where
  | transcodeRun
  | commitFilename
  | unlinkInput
  | thumbRun
  | commitThumbnail
deriving DecidableEq

/-- Shared state the worker mutates: blob store plus metadata store. -/
structure WState where
  fs : FS
  db : List Video
deriving DecidableEq

/-- Thumbnail block of `process_video` (`tasks/video.py` lines 61-91): look up
the record by the output filename; if found with `thumbnail_filename` unset,
run ffmpeg frame extraction (`thOk` is its exit status, `thumbBytes` its
output); on success write the image and commit the new thumbnail name, on
failure only log.  Returns the (event, post-state) trace of the block. -/
def thumbPhase (st : WState) (outFn : Str) (thOk : Bool) (thumbBytes : Bytes) :
    List (WEvent × WState) :=
  match st.db.find? (fun v => v.filename == outFn) with
  | none => []
  | some v =>
    if v.thumbnail_filename = none then
      let tn := autoThumbName outFn
      if thOk then
        let st1 : WState := ⟨st.fs ++ [(tn, thumbBytes)], st.db⟩
        let st2 : WState := ⟨st1.fs, dbSetThumbFirst st1.db outFn tn⟩
        [(WEvent.thumbRun, st1), (WEvent.commitThumbnail, st2)]
      else
        [(WEvent.thumbRun, st)]
    else []

/-- `process_video(filename)` of `tasks/video.py` as a trace of primitive
steps.  `tOk` is the ffmpeg transcode exit status and `outBytes` the bytes it
writes; on `subprocess.CalledProcessError` the task logs and returns early.
On success it commits the new filename to the metadata store and only then
unlinks the input artifact. -/
def process_video (st : WState) (fn : Str) (tOk thOk : Bool)
    (outBytes thumbBytes : Bytes) : List (WEvent × WState) :=
  let outFn := outputName fn
  if mp4Ext.isSuffixOf fn = false then
    if tOk then
      let st1 : WState := ⟨st.fs ++ [(outFn, outBytes)], st.db⟩
      let st2 : WState := ⟨st1.fs, dbUpdateFilenameFirst st1.db fn outFn⟩
      let st3 : WState := ⟨fsRemove st2.fs fn, st2.db⟩
      [(WEvent.transcodeRun, st1), (WEvent.commitFilename, st2),
        (WEvent.unlinkInput, st3)] ++ thumbPhase st3 outFn thOk thumbBytes
    else
      [(WEvent.transcodeRun, st)]
  else
    thumbPhase st outFn thOk thumbBytes

/-- Final state of one worker run. -/
def runProcessVideo (st : WState) (fn : Str) (tOk thOk : Bool)
    (outBytes thumbBytes : Bytes) : WState :=
  match (process_video st fn tOk thOk outBytes thumbBytes).getLast? with
  | some p => p.2
  | none => st

/-- Start of the requested range: omitted start defaults to 0. -/
def rangeStartOf (a? : Option Nat) : Int :=
  match a? with
  | none => 0
  | some a => (a : Int)

/-- End of the requested range: omitted end defaults to `file_size - 1`, and
an end at or past `file_size` is clamped to `file_size - 1`. -/
def rangeEndOf (b? : Option Nat) (fileSize : Int) : Int :=
  let e : Int := match b? with | none => fileSize - 1 | some b => (b : Int)
  if e ≥ fileSize then fileSize - 1 else e

/-- Range-header parsing of `stream_video` (`videos.py` lines 220-226):
`range_val = header.strip().lower().split("=")[-1]`, then
`start_str, end_str = range_val.split("-")` (a `ValueError`, hence `none`,
unless exactly one dash), `int` conversion with empty-string defaults, and
the end clamp.  `none` models an uncaught `ValueError`. -/
def parseRange (header : Str) (fileSize : Int) : Option (Int × Int) :=
  let rangeVal := (pySplit '=' (pyLower (pyStrip header))).getLastD []
  match pySplit '-' rangeVal with
  | [startStr, endStr] =>
    match (if startStr.isEmpty then some 0 else pyInt startStr),
          (if endStr.isEmpty then some (fileSize - 1) else pyInt endStr) with
    | some s, some e => some (s, if e ≥ fileSize then fileSize - 1 else e)
    | _, _ => none
  | _ => none

/-- Body produced by `range_iterator`: seek to `start`, then bounded chunked
reads until `content_length` bytes are consumed or the file ends. -/
def readRange (content : Bytes) (start contentLength : Int) : Bytes :=
  if contentLength ≤ 0 then []
  else (content.drop start.toNat).take contentLength.toNat

/-- The content-range header value `bytes start-end/size`. -/
def contentRangeStr (s e size : Int) : Str :=
  "bytes ".toList ++ intToDec s ++ ['-'] ++ intToDec e ++ ['/'] ++ intToDec size

/-- Outcome of the stream endpoint: a raised `HTTPException`, a streaming
response (status, optional Content-Range and Accept-Ranges headers,
Content-Length, body), or an uncaught `ValueError` (a 5xx to the client). -/
inductive StreamResult where
  | httpError (status : Nat)
  | streamOk (status : Nat) (contentRange : Option Str) (acceptRanges : Option Str)
      (contentLength : Int) (body : Bytes)
  | valueError
deriving DecidableEq

/-- `GET /videos/(id)/stream` (`videos.py` lines 192-250). -/
def stream_video (db : List Video) (fs : FS) (vid : Nat)
    (rangeHeader : Option Str) : StreamResult :=
  match dbGet db vid with
  | none => StreamResult.httpError 404
  | some video =>
    match fsGet fs video.filename with
    | none => StreamResult.httpError 404
    | some content =>
      let fileSize : Int := content.length
      match rangeHeader with
      | none => StreamResult.streamOk 200 none none fileSize content
      | some h =>
        match parseRange h fileSize with
        | none => StreamResult.valueError
        | some (s, e) =>
          let contentLength := e - s + 1
          StreamResult.streamOk 206 (some (contentRangeStr s e fileSize))
            (some "bytes".toList) contentLength (readRange content s contentLength)

/-- Outcome of the thumbnail endpoint. -/
inductive ThumbResult where
  | httpError (status : Nat)
  | fileResp (filename : Str) (body : Bytes)
deriving DecidableEq

/-- `GET /videos/(id)/thumbnail` (`videos.py` lines 253-269). -/
def get_video_thumbnail (db : List Video) (fs : FS) (vid : Nat) : ThumbResult :=
  match dbGet db vid with
  | none => ThumbResult.httpError 404
  | some video =>
    match video.thumbnail_filename with
    | none => ThumbResult.httpError 404
    | some tf =>
      match fsGet fs tf with
      | none => ThumbResult.httpError 404
      | some content => ThumbResult.fileResp tf content

/-- The requester of a delete, as the endpoint sees it. -/
structure AuthUser where
  id : Nat
  is_superuser : Bool
deriving DecidableEq

/-- Outcome of the delete endpoint. -/
inductive DeleteResult where
  | httpError (status : Nat)
  | ok
deriving DecidableEq

/-- `DELETE /videos/(id)` (`videos.py` lines 272-286): 404 if the record is
absent, 403 unless owner or superuser; then `os.remove` of the video file
with `FileNotFoundError` ignored, and record deletion.  The thumbnail file is
not touched. -/
def delete_video_by_id (db : List Video) (fs : FS) (vid : Nat) (user : AuthUser) :
    DeleteResult × List Video × FS :=
  match dbGet db vid with
  | none => (DeleteResult.httpError 404, db, fs)
  | some v =>
    if v.owner_id ≠ user.id ∧ user.is_superuser = false then
      (DeleteResult.httpError 403, db, fs)
    else
      (DeleteResult.ok, db.filter (fun w => w.id != vid), fsRemove fs v.filename)

/-- Outcome of the upload endpoint. -/
inductive UploadResult where
  | invalidVideo
  | invalidThumbnail
  | created (recordId : Nat)
deriving DecidableEq

/-- `POST /videos/` (`videos.py` lines 26-82).  `newFileId` is the generated
`video_id = uuid.uuid4()` used for filenames, `newRecId` the independent uuid
`crud.create_video` assigns to the row, `now` the creation clock read by the
`created_at` / `updated_at` default factories.  The declared content type of
the video is checked first; the video file is then written; an optional
thumbnail has its content type checked only after that write. -/
def upload_video (fs : FS) (db : List Video)
    (now newFileId newRecId ownerId : Nat)
    (title : String) (descr : Option String) (catId : Option Nat) (isPriv : Bool)
    (videoCT videoExt : Str) (videoBytes : Bytes)
    (thumb : Option (Str × Str × Bytes)) :
    UploadResult × FS × List Video :=
  if ("video/".toList).isPrefixOf videoCT = false then
    (UploadResult.invalidVideo, fs, db)
  else
    let filename := natToDec newFileId ++ videoExt
    let fs1 := fs ++ [(filename, videoBytes)]
    match thumb with
    | none =>
      (UploadResult.created newRecId, fs1,
        db ++ [{ id := newRecId, title := title, description := descr,
                 filename := filename, thumbnail_filename := none,
                 owner_id := ownerId, is_private := isPriv, is_processed := false,
                 category_id := catId, created_at := now, updated_at := now }])
    | some (tct, tExt, tBytes) =>
      if ("image/".toList).isPrefixOf tct = false then
        (UploadResult.invalidThumbnail, fs1, db)
      else
        let tname := natToDec newFileId ++ "_thumbnail".toList ++ tExt
        let fs2 := fs1 ++ [(tname, tBytes)]
        (UploadResult.created newRecId, fs2,
          db ++ [{ id := newRecId, title := title, description := descr,
                   filename := filename, thumbnail_filename := some tname,
                   owner_id := ownerId, is_private := isPriv, is_processed := false,
                   category_id := catId, created_at := now, updated_at := now }])

/-- `VideoCrud.update_video` (`crud.py`): set the provided title, description
and category on the record with the given id and commit.  No timestamp is
touched anywhere in this path. -/
def update_video (db : List Video) (vid : Nat)
    (title? descr? : Option String) (cat? : Option Nat) : List Video :=
  db.map (fun v =>
    if v.id == vid then
      { v with
        title := title?.getD v.title,
        description := match descr? with | none => v.description | some d => some d,
        category_id := match cat? with | none => v.category_id | some c => some c }
    else v)

theorem pySplit_ne_nil (sep : Char) (s : Str) : pySplit sep s ≠ [] := by
  cases s with
  | nil => simp [pySplit]
  | cons c cs =>
    simp only [pySplit]
    split
    · simp
    · split <;> simp

theorem dropWhile_of_false (p : Char → Bool) (s : Str)
    (h : ∀ c ∈ s, p c = false) : s.dropWhile p = s := by
  cases s with
  | nil => rfl
  | cons a as => simp [List.dropWhile_cons, h a (by simp)]

theorem pyStrip_of_no_ws (s : Str) (h : ∀ c ∈ s, Char.isWhitespace c = false) :
    pyStrip s = s := by
  unfold pyStrip
  rw [dropWhile_of_false _ _ h, dropWhile_of_false]
  · exact List.reverse_reverse s
  · intro c hc
    exact h c (List.mem_reverse.mp hc)

theorem pyLower_of_fixed : ∀ (s : Str), (∀ c ∈ s, Char.toLower c = c) → pyLower s = s
  | [], _ => rfl
  | a :: as, h => by
    have h1 : Char.toLower a = a := h a (by simp)
    have h2 := pyLower_of_fixed as (fun c hc => h c (by simp [hc]))
    simp only [pyLower, List.map_cons] at h2 ⊢
    rw [h1, h2]

theorem pySplit_of_no_sep (sep : Char) :
    ∀ (s : Str), (∀ c ∈ s, c ≠ sep) → pySplit sep s = [s]
  | [], _ => rfl
  | a :: as, h => by
    have h2 := pySplit_of_no_sep sep as (fun c hc => h c (by simp [hc]))
    have ha : ¬(a = sep) := h a (by simp)
    simp [pySplit, h2, ha]

theorem pySplit_append_sep (sep : Char) :
    ∀ (A B : Str), (∀ c ∈ A, c ≠ sep) →
      pySplit sep (A ++ sep :: B) = A :: pySplit sep B
  | [], B, _ => by
    rcases hB : pySplit sep B with _ | ⟨h1, t⟩
    · exact absurd hB (pySplit_ne_nil sep B)
    · simp [pySplit, hB]
  | a :: as, B, h => by
    have h2 := pySplit_append_sep sep as B (fun c hc => h c (by simp [hc]))
    have ha : ¬(a = sep) := h a (by simp)
    simp only [List.cons_append, pySplit, ha, if_false, List.append_eq]
    rw [h2]

theorem digitChar_mem_DIGITS (n : Nat) : digitChar n ∈ DIGITS := by
  unfold digitChar
  split <;> decide

theorem DIGITS_facts : ∀ c ∈ DIGITS, isDig c = true ∧ Char.isWhitespace c = false ∧
    Char.toLower c = c ∧ c ≠ '-' ∧ c ≠ '=' ∧ c ≠ '+' := by decide

theorem natToDecAux_subset : ∀ (fuel n : Nat), ∀ c ∈ natToDecAux fuel n, c ∈ DIGITS
  | 0, n => by simp [natToDecAux]
  | fuel + 1, n => by
    intro c hc
    simp only [natToDecAux] at hc
    by_cases h : n < 10
    · rw [if_pos h] at hc
      simp only [List.mem_singleton] at hc
      subst hc
      exact digitChar_mem_DIGITS n
    · rw [if_neg h] at hc
      rcases List.mem_append.mp hc with h1 | h1
      · exact natToDecAux_subset fuel (n / 10) c h1
      · simp only [List.mem_singleton] at h1
        subst h1
        exact digitChar_mem_DIGITS _

theorem natToDec_subset (n : Nat) : ∀ c ∈ natToDec n, c ∈ DIGITS :=
  natToDecAux_subset (n + 1) n

theorem natToDec_ne_nil (n : Nat) : natToDec n ≠ [] := by
  unfold natToDec natToDecAux
  split <;> simp

theorem natToDec_not_empty (n : Nat) : (natToDec n).isEmpty = false := by
  rcases h : natToDec n with _ | ⟨a, as⟩
  · exact absurd h (natToDec_ne_nil n)
  · simp

theorem digitVal_digitChar (n : Nat) (h : n < 10) : digitVal (digitChar n) = n := by
  interval_cases n <;> decide

theorem decValue_append_digit (s : Str) (c : Char) :
    decValue (s ++ [c]) = 10 * decValue s + digitVal c := by
  simp [decValue, List.foldl_append]

theorem decValue_natToDecAux : ∀ (fuel n : Nat), n < fuel →
    decValue (natToDecAux fuel n) = n
  | 0, _, h => absurd h (by omega)
  | fuel + 1, n, h => by
    simp only [natToDecAux]
    by_cases h10 : n < 10
    · rw [if_pos h10]
      simp [decValue, digitVal_digitChar n h10]
    · rw [if_neg h10]
      rw [decValue_append_digit, decValue_natToDecAux fuel (n / 10) (by omega)]
      rw [digitVal_digitChar (n % 10) (by omega)]
      omega

theorem decValue_natToDec (n : Nat) : decValue (natToDec n) = n :=
  decValue_natToDecAux (n + 1) n (by omega)

theorem pyNat_natToDec (n : Nat) : pyNat (natToDec n) = some n := by
  have hall : (natToDec n).all isDig = true := by
    rw [List.all_eq_true]
    intro c hc
    exact (DIGITS_facts c (natToDec_subset n c hc)).1
  unfold pyNat
  rw [natToDec_not_empty, hall]
  simp [decValue_natToDec]

theorem pyInt_natToDec (n : Nat) : pyInt (natToDec n) = some (n : Int) := by
  have hstrip : pyStrip (natToDec n) = natToDec n :=
    pyStrip_of_no_ws _ (fun c hc => (DIGITS_facts c (natToDec_subset n c hc)).2.1)
  have hhead : (natToDec n).headD ' ' ∈ DIGITS := by
    rcases h : natToDec n with _ | ⟨a, as⟩
    · exact absurd h (natToDec_ne_nil n)
    · simpa using natToDec_subset n a (by rw [h]; simp)
  have hd := DIGITS_facts _ hhead
  have h1 : ¬(List.head? (natToDec n)).getD ' ' = '-' := by simpa using hd.2.2.2.1
  have h2 : ¬(List.head? (natToDec n)).getD ' ' = '+' := by simpa using hd.2.2.2.2.2
  unfold pyInt
  simp only [hstrip]
  simp [natToDec_not_empty, h1, h2, pyNat_natToDec]

theorem optDec_subset (o : Option Nat) : ∀ c ∈ optDec o, c ∈ DIGITS := by
  cases o with
  | none => simp [optDec]
  | some n => exact natToDec_subset n

theorem header_char_facts : ∀ c ∈ "bytes=".toList ++ ('-' :: DIGITS),
    Char.isWhitespace c = false ∧ Char.toLower c = c := by decide

theorem rangeStartOf_nonneg (a? : Option Nat) : 0 ≤ rangeStartOf a? := by
  cases a? <;> simp [rangeStartOf]

theorem rangeEndOf_le (b? : Option Nat) (size : Int) : rangeEndOf b? size ≤ size - 1 := by
  cases b? with
  | none =>
    simp only [rangeEndOf]
    split <;> omega
  | some b =>
    simp only [rangeEndOf]
    split <;> omega

theorem parseRange_render (a? b? : Option Nat) (size : Int) :
    parseRange ("bytes=".toList ++ (optDec a? ++ ('-' :: optDec b?))) size =
      some (rangeStartOf a?, rangeEndOf b? size) := by
  have hmem : ∀ c ∈ "bytes=".toList ++ (optDec a? ++ ('-' :: optDec b?)),
      c ∈ "bytes=".toList ++ ('-' :: DIGITS) := by
    intro c hc
    rcases List.mem_append.mp hc with h1 | h1
    · exact List.mem_append.mpr (Or.inl h1)
    · rcases List.mem_append.mp h1 with h2 | h2
      · exact List.mem_append.mpr (Or.inr (by simp [optDec_subset a? c h2]))
      · rcases List.mem_cons.mp h2 with h3 | h3
        · subst h3; exact List.mem_append.mpr (Or.inr (by simp))
        · exact List.mem_append.mpr (Or.inr (by simp [optDec_subset b? c h3]))
  have hfix : ∀ c ∈ "bytes=".toList ++ (optDec a? ++ ('-' :: optDec b?)),
      Char.isWhitespace c = false ∧ Char.toLower c = c :=
    fun c hc => header_char_facts c (hmem c hc)
  have hstrip := pyStrip_of_no_ws _ (fun c hc => (hfix c hc).1)
  have hlower := pyLower_of_fixed _ (fun c hc => (hfix c hc).2)
  have hne_eq : ∀ c ∈ optDec a? ++ ('-' :: optDec b?), c ≠ '=' := by
    intro c hc
    rcases List.mem_append.mp hc with h1 | h1
    · exact (DIGITS_facts c (optDec_subset a? c h1)).2.2.2.2.1
    · rcases List.mem_cons.mp h1 with h2 | h2
      · subst h2; decide
      · exact (DIGITS_facts c (optDec_subset b? c h2)).2.2.2.2.1
  have hb : "bytes=".toList ++ (optDec a? ++ ('-' :: optDec b?))
      = "bytes".toList ++ '=' :: (optDec a? ++ ('-' :: optDec b?)) := by
    have : "bytes=".toList = "bytes".toList ++ ['='] := by decide
    rw [this, List.append_assoc, List.singleton_append]
  have hsplit1 : pySplit '=' ("bytes=".toList ++ (optDec a? ++ ('-' :: optDec b?)))
      = ["bytes".toList, optDec a? ++ ('-' :: optDec b?)] := by
    rw [hb, pySplit_append_sep '=' _ _ (by decide),
      pySplit_of_no_sep '=' _ hne_eq]
  have hsplit2 : pySplit '-' (optDec a? ++ ('-' :: optDec b?)) = [optDec a?, optDec b?] := by
    rw [pySplit_append_sep '-' _ _
        (fun c hc => (DIGITS_facts c (optDec_subset a? c hc)).2.2.2.1),
      pySplit_of_no_sep '-' _
        (fun c hc => (DIGITS_facts c (optDec_subset b? c hc)).2.2.2.1)]
  unfold parseRange
  rw [hstrip, hlower, hsplit1]
  have hlast : (["bytes".toList, optDec a? ++ ('-' :: optDec b?)] : List Str).getLastD []
      = optDec a? ++ ('-' :: optDec b?) := rfl
  rw [hlast]
  simp only [hsplit2]
  cases a? with
  | none =>
    cases b? with
    | none => simp [optDec, rangeStartOf, rangeEndOf]
    | some b =>
      simp [optDec, rangeStartOf, rangeEndOf, natToDec_not_empty, pyInt_natToDec]
  | some a =>
    cases b? with
    | none =>
      simp [optDec, rangeStartOf, rangeEndOf, natToDec_not_empty, pyInt_natToDec]
    | some b =>
      simp [optDec, rangeStartOf, rangeEndOf, natToDec_not_empty, pyInt_natToDec]

/-- C1: for a stream request on an existing video whose artifact exists,
with header `bytes=a-b` (either bound may be omitted; an end at or past the
file size is clamped to size minus one), whenever the resolved start does not
exceed the resolved end the response is status 206 with Content-Range
`bytes start-end/size`, Accept-Ranges `bytes`, Content-Length `end-start+1`,
and the body is exactly that inclusive byte span of the artifact (the length
conjunct shows the span is fully present). -/
theorem c1_valid_range_request (db : List Video) (fs : FS) (vid : Nat)
    (v : Video) (content : Bytes) (a? b? : Option Nat)
    (hv : dbGet db vid = some v)
    (hf : fsGet fs v.filename = some content)
    (hse : rangeStartOf a? ≤ rangeEndOf b? (content.length : Int)) :
    stream_video db fs vid
        (some ("bytes=".toList ++ (optDec a? ++ ('-' :: optDec b?)))) =
      StreamResult.streamOk 206
        (some (contentRangeStr (rangeStartOf a?)
          (rangeEndOf b? (content.length : Int)) (content.length : Int)))
        (some "bytes".toList)
        (rangeEndOf b? (content.length : Int) - rangeStartOf a? + 1)
        ((content.drop (rangeStartOf a?).toNat).take
          (rangeEndOf b? (content.length : Int) - rangeStartOf a? + 1).toNat)
    ∧ ((content.drop (rangeStartOf a?).toNat).take
          (rangeEndOf b? (content.length : Int) - rangeStartOf a? + 1).toNat).length
        = (rangeEndOf b? (content.length : Int) - rangeStartOf a? + 1).toNat := by
  have hs0 := rangeStartOf_nonneg a?
  have he1 := rangeEndOf_le b? (content.length : Int)
  constructor
  · simp only [stream_video, hv, hf, parseRange_render]
    unfold readRange
    rw [if_neg (by omega)]
  · rw [List.length_take, List.length_drop]
    omega

/-- Witness for C1: a four-byte artifact served with `bytes=1-2`. -/
theorem c1_valid_range_request_witness :
    stream_video
        [{ id := 7, title := "t", filename := "a.mp4".toList, owner_id := 1,
           created_at := 0, updated_at := 0 }]
        [("a.mp4".toList, [10, 20, 30, 40])] 7
        (some ("bytes=".toList ++ (optDec (some 1) ++ ('-' :: optDec (some 2))))) =
      StreamResult.streamOk 206
        (some (contentRangeStr (rangeStartOf (some 1))
          (rangeEndOf (some 2) (([10, 20, 30, 40] : Bytes).length : Int))
          (([10, 20, 30, 40] : Bytes).length : Int)))
        (some "bytes".toList)
        (rangeEndOf (some 2) (([10, 20, 30, 40] : Bytes).length : Int)
          - rangeStartOf (some 1) + 1)
        ((([10, 20, 30, 40] : Bytes).drop (rangeStartOf (some 1)).toNat).take
          (rangeEndOf (some 2) (([10, 20, 30, 40] : Bytes).length : Int)
            - rangeStartOf (some 1) + 1).toNat)
    ∧ ((([10, 20, 30, 40] : Bytes).drop (rangeStartOf (some 1)).toNat).take
          (rangeEndOf (some 2) (([10, 20, 30, 40] : Bytes).length : Int)
            - rangeStartOf (some 1) + 1).toNat).length
        = (rangeEndOf (some 2) (([10, 20, 30, 40] : Bytes).length : Int)
            - rangeStartOf (some 1) + 1).toNat :=
  c1_valid_range_request
    [{ id := 7, title := "t", filename := "a.mp4".toList, owner_id := 1,
       created_at := 0, updated_at := 0 }]
    [("a.mp4".toList, [10, 20, 30, 40])] 7
    { id := 7, title := "t", filename := "a.mp4".toList, owner_id := 1,
      created_at := 0, updated_at := 0 }
    [10, 20, 30, 40] (some 1) (some 2) rfl rfl (by decide)

/-- C7: a stream request with no Range header on an existing video whose
artifact exists returns status 200 with Content-Length equal to the artifact
size and the full artifact as body. -/
theorem c7_no_range_full_content (db : List Video) (fs : FS) (vid : Nat)
    (v : Video) (content : Bytes)
    (hv : dbGet db vid = some v)
    (hf : fsGet fs v.filename = some content) :
    stream_video db fs vid none =
      StreamResult.streamOk 200 none none (content.length : Int) content := by
  simp only [stream_video, hv, hf]

/-- Witness for C7 at a concrete three-byte artifact. -/
theorem c7_no_range_full_content_witness :
    stream_video
        [{ id := 3, title := "u", filename := "b.mp4".toList, owner_id := 2,
           created_at := 0, updated_at := 0 }]
        [("b.mp4".toList, [7, 8, 9])] 3 none =
      StreamResult.streamOk 200 none none (([7, 8, 9] : Bytes).length : Int)
        [7, 8, 9] :=
  c7_no_range_full_content
    [{ id := 3, title := "u", filename := "b.mp4".toList, owner_id := 2,
       created_at := 0, updated_at := 0 }]
    [("b.mp4".toList, [7, 8, 9])] 3
    { id := 3, title := "u", filename := "b.mp4".toList, owner_id := 2,
      created_at := 0, updated_at := 0 }
    [7, 8, 9] rfl rfl

/-- C3 counterexample: on an existing video with an existing two-byte
artifact, the malformed header `bytes=abc-def` makes the endpoint raise an
uncaught ValueError (a server error), not fall back to the full-content
status-200 response the claim describes. -/
theorem c3_malformed_range_counterexample :
    stream_video
        [{ id := 7, title := "t", filename := "a.mp4".toList, owner_id := 1,
           created_at := 0, updated_at := 0 }]
        [("a.mp4".toList, [5, 6])] 7 (some "bytes=abc-def".toList) =
      StreamResult.valueError
    ∧ stream_video
        [{ id := 7, title := "t", filename := "a.mp4".toList, owner_id := 1,
           created_at := 0, updated_at := 0 }]
        [("a.mp4".toList, [5, 6])] 7 (some "bytes=abc-def".toList) ≠
      StreamResult.streamOk 200 none none 2 [5, 6] := by
  constructor <;> decide

/-- C3 amended: for an existing video whose artifact exists, any Range
header whose parse fails (no single dash, or a non-numeric bound) makes the
stream endpoint raise an uncaught ValueError rather than fall back to the
full-content response or any handled error. -/
theorem c3_malformed_range_uncaught (db : List Video) (fs : FS) (vid : Nat)
    (v : Video) (content : Bytes) (h : Str)
    (hv : dbGet db vid = some v)
    (hf : fsGet fs v.filename = some content)
    (hparse : parseRange h (content.length : Int) = none) :
    stream_video db fs vid (some h) = StreamResult.valueError := by
  simp only [stream_video, hv, hf, hparse]

/-- Witness for the amended C3 at the concrete header `bytes=abc-def`. -/
theorem c3_malformed_range_uncaught_witness :
    stream_video
        [{ id := 9, title := "t", filename := "c.mp4".toList, owner_id := 1,
           created_at := 0, updated_at := 0 }]
        [("c.mp4".toList, [5, 6])] 9 (some "bytes=abc-def".toList) =
      StreamResult.valueError :=
  c3_malformed_range_uncaught _ _ _ _ _ _ rfl rfl (by decide)

/-- C4: if the video record is absent, or it exists but the referenced file
is missing from the upload directory, the stream endpoint answers 404 for
every request (any Range header), and likewise the thumbnail endpoint when
the record is absent or its set thumbnail file is missing; in all these
cases the result is exactly a handled 404, never a server error. -/
theorem c4_missing_resource_404 (db : List Video) (fs : FS) (vid : Nat)
    (hdr : Option Str) :
    ((dbGet db vid = none ∨
        (∃ v, dbGet db vid = some v ∧ fsGet fs v.filename = none)) →
      stream_video db fs vid hdr = StreamResult.httpError 404)
    ∧ ((dbGet db vid = none ∨
        (∃ v, dbGet db vid = some v ∧
          ∃ t, v.thumbnail_filename = some t ∧ fsGet fs t = none)) →
      get_video_thumbnail db fs vid = ThumbResult.httpError 404) := by
  constructor
  · rintro (h | ⟨v, hv, hf⟩)
    · simp [stream_video, h]
    · simp [stream_video, hv, hf]
  · rintro (h | ⟨v, hv, t, ht, hf⟩)
    · simp [get_video_thumbnail, h]
    · simp [get_video_thumbnail, hv, ht, hf]

/-- Witness for C4: an empty metadata store yields 404 from both endpoints. -/
theorem c4_missing_resource_404_witness :
    stream_video [] [] 0 none = StreamResult.httpError 404
    ∧ get_video_thumbnail [] [] 0 = ThumbResult.httpError 404 :=
  ⟨(c4_missing_resource_404 [] [] 0 none).1 (Or.inl rfl),
    (c4_missing_resource_404 [] [] 0 none).2 (Or.inl rfl)⟩

/-- C9: the stream endpoint never validates the range start against the file
size: for `bytes=s-` (or `bytes=s-e` with `e` at or past the last byte) on an
existing artifact with `s` at or past the file size, the response is still
status 206 with Content-Range `bytes s-(size-1)/size`, a Content-Length of
`size - s` which is zero or negative, and an empty body — no 416 or other
error status is produced. -/
theorem c9_out_of_bounds_start_not_rejected (db : List Video) (fs : FS)
    (vid : Nat) (v : Video) (content : Bytes) (s : Nat) (b? : Option Nat)
    (hv : dbGet db vid = some v)
    (hf : fsGet fs v.filename = some content)
    (hs : (content.length : Int) ≤ (s : Int))
    (hb : ∀ b, b? = some b → (content.length : Int) ≤ (b : Int) + 1) :
    stream_video db fs vid
        (some ("bytes=".toList ++ (optDec (some s) ++ ('-' :: optDec b?)))) =
      StreamResult.streamOk 206
        (some (contentRangeStr (s : Int) ((content.length : Int) - 1)
          (content.length : Int)))
        (some "bytes".toList) ((content.length : Int) - (s : Int)) []
    ∧ (content.length : Int) - (s : Int) ≤ 0 := by
  have he : rangeEndOf b? (content.length : Int) = (content.length : Int) - 1 := by
    cases b? with
    | none =>
      simp only [rangeEndOf]
      split <;> rfl
    | some b =>
      have hb1 := hb b rfl
      simp only [rangeEndOf]
      split <;> omega
  constructor
  · simp only [stream_video, hv, hf, parseRange_render, he]
    have hst : rangeStartOf (some s) = (s : Int) := rfl
    rw [hst]
    have harith : (content.length : Int) - 1 - (s : Int) + 1
        = (content.length : Int) - (s : Int) := by ring
    rw [harith]
    unfold readRange
    rw [if_pos (by omega)]
  · omega

/-- Witness for C9: `bytes=5-` on a two-byte artifact. -/
theorem c9_out_of_bounds_start_not_rejected_witness :
    stream_video
        [{ id := 4, title := "t", filename := "d.mp4".toList, owner_id := 1,
           created_at := 0, updated_at := 0 }]
        [("d.mp4".toList, [1, 2])] 4
        (some ("bytes=".toList ++ (optDec (some 5) ++ ('-' :: optDec none)))) =
      StreamResult.streamOk 206
        (some (contentRangeStr ((5 : Nat) : Int)
          ((([1, 2] : Bytes).length : Int) - 1) (([1, 2] : Bytes).length : Int)))
        (some "bytes".toList)
        ((([1, 2] : Bytes).length : Int) - ((5 : Nat) : Int)) []
    ∧ (([1, 2] : Bytes).length : Int) - ((5 : Nat) : Int) ≤ 0 :=
  c9_out_of_bounds_start_not_rejected
    [{ id := 4, title := "t", filename := "d.mp4".toList, owner_id := 1,
       created_at := 0, updated_at := 0 }]
    [("d.mp4".toList, [1, 2])] 4
    { id := 4, title := "t", filename := "d.mp4".toList, owner_id := 1,
      created_at := 0, updated_at := 0 }
    [1, 2] 5 none rfl rfl (by decide) (fun b h => Option.noConfusion h)

theorem find?_append_first {α : Type} (p : α → Bool) :
    ∀ (pre : List α) (r : α) (post : List α),
      (∀ v ∈ pre, p v = false) → p r = true →
      (pre ++ r :: post).find? p = some r
  | [], r, post, _, hr => by simp [List.find?_cons, hr]
  | a :: as, r, post, hpre, hr => by
    have ha := hpre a (by simp)
    simp only [List.cons_append, List.find?_cons, ha]
    exact find?_append_first p as r post (fun v hv => hpre v (by simp [hv])) hr

theorem dbUpdateFilenameFirst_append :
    ∀ (pre : List Video) (r : Video) (post : List Video) (old new : Str),
      (∀ v ∈ pre, v.filename ≠ old) → r.filename = old →
      dbUpdateFilenameFirst (pre ++ r :: post) old new
        = pre ++ { r with filename := new } :: post
  | [], r, post, old, new, _, hr => by
    simp [dbUpdateFilenameFirst, hr]
  | a :: as, r, post, old, new, hpre, hr => by
    have ha : (a.filename == old) = false := by
      simp [hpre a (by simp)]
    simp only [List.cons_append, dbUpdateFilenameFirst, ha, Bool.false_eq_true,
      if_false, List.append_eq]
    rw [dbUpdateFilenameFirst_append as r post old new
      (fun v hv => hpre v (by simp [hv])) hr]

theorem dbSetThumbFirst_append :
    ∀ (pre : List Video) (r : Video) (post : List Video) (fn t : Str),
      (∀ v ∈ pre, v.filename ≠ fn) → r.filename = fn →
      dbSetThumbFirst (pre ++ r :: post) fn t
        = pre ++ { r with thumbnail_filename := some t } :: post
  | [], r, post, fn, t, _, hr => by
    simp [dbSetThumbFirst, hr]
  | a :: as, r, post, fn, t, hpre, hr => by
    have ha : (a.filename == fn) = false := by
      simp [hpre a (by simp)]
    simp only [List.cons_append, dbSetThumbFirst, ha, Bool.false_eq_true, if_false,
      List.append_eq]
    rw [dbSetThumbFirst_append as r post fn t
      (fun v hv => hpre v (by simp [hv])) hr]

theorem dbSetThumbFirst_filenames :
    ∀ (db : List Video) (fn t : Str),
      (dbSetThumbFirst db fn t).map (fun v => v.filename)
        = db.map (fun v => v.filename)
  | [], _, _ => rfl
  | v :: rest, fn, t => by
    cases hb : (v.filename == fn) with
    | true => simp [dbSetThumbFirst, hb]
    | false =>
      simp only [dbSetThumbFirst, hb, Bool.false_eq_true, if_false, List.map_cons]
      rw [dbSetThumbFirst_filenames rest fn t]

theorem mem_fsNames_append (fs : FS) (x : Str × Bytes) (g : Str)
    (h : g ∈ fsNames fs) : g ∈ fsNames (fs ++ [x]) := by
  unfold fsNames at *
  rw [List.map_append]
  exact List.mem_append.mpr (Or.inl h)

theorem mem_fsNames_fsRemove (fs : FS) (g fn : Str) (hne : g ≠ fn)
    (hg : g ∈ fsNames fs) : g ∈ fsNames (fsRemove fs fn) := by
  unfold fsNames fsRemove at *
  rcases List.mem_map.mp hg with ⟨p, hp, he⟩
  refine List.mem_map.mpr ⟨p, List.mem_filter.mpr ⟨hp, ?_⟩, he⟩
  simp only [bne_iff_ne, ne_eq, decide_eq_true_eq]
  intro hc
  exact hne (by rw [← he, hc])

theorem dbSetThumb_inv (db : List Video) (fn t : Str) (names : List Str)
    (hinv : ∀ v ∈ db, v.filename ∈ names) :
    ∀ v ∈ dbSetThumbFirst db fn t, v.filename ∈ names := by
  intro v hv
  have h1 : v.filename ∈ (dbSetThumbFirst db fn t).map (fun w => w.filename) :=
    List.mem_map_of_mem _ hv
  rw [dbSetThumbFirst_filenames] at h1
  rcases List.mem_map.mp h1 with ⟨w, hw, he⟩
  rw [← he]
  exact hinv w hw

theorem thumbPhase_invariant (st : WState) (outFn : Str) (thOk : Bool)
    (tb : Bytes) (hinv : ∀ v ∈ st.db, v.filename ∈ fsNames st.fs) :
    ∀ p ∈ thumbPhase st outFn thOk tb, ∀ v ∈ p.2.db, v.filename ∈ fsNames p.2.fs := by
  intro p hp
  unfold thumbPhase at hp
  split at hp
  · simp at hp
  · split at hp
    · split at hp
      · simp only [List.mem_cons, List.not_mem_nil, or_false] at hp
        rcases hp with hp | hp
        · subst hp
          intro v hv
          exact mem_fsNames_append _ _ _ (hinv v hv)
        · subst hp
          intro v hv
          exact dbSetThumb_inv st.db outFn (autoThumbName outFn) _
            (fun v hv => mem_fsNames_append _ _ _ (hinv v hv)) v hv
      · simp only [List.mem_singleton] at hp
        subst hp
        exact hinv
    · simp at hp

theorem thumbPhase_events (st : WState) (outFn : Str) (thOk : Bool) (tb : Bytes) :
    ∀ e ∈ (thumbPhase st outFn thOk tb).map Prod.fst,
      e = WEvent.thumbRun ∨ e = WEvent.commitThumbnail := by
  intro e he
  unfold thumbPhase at he
  split at he
  · simp at he
  · split at he
    · split at he
      · simp only [List.map_cons, List.map_nil, List.mem_cons,
          List.not_mem_nil, or_false] at he
        rcases he with he | he <;> simp [he]
      · simp only [List.map_cons, List.map_nil, List.mem_singleton] at he
        simp [he]
    · simp at he

theorem mp4_suffix_outputName (fn : Str) :
    mp4Ext.isSuffixOf (outputName fn) = true :=
  List.isSuffixOf_iff_suffix.mpr (List.suffix_append (pyStem fn) mp4Ext)

theorem outputName_ne (fn : Str) (h : mp4Ext.isSuffixOf fn = false) :
    outputName fn ≠ fn := by
  intro he
  have h2 := mp4_suffix_outputName fn
  rw [he] at h2
  simp [h] at h2

/-- C2: on the worker's transcode success path (input not already mp4,
ffmpeg exits 0), the metadata record's filename is committed to the new
output name strictly before the old input artifact is unlinked: the trace is
transcode-write, filename-commit, input-unlink, then only thumbnail steps,
and after every step of the trace every record's filename still names a file
present in the blob store — so a crash at any point (in particular between
commit and delete) never leaves a record pointing at a missing file, at
worst an orphaned old file. -/
theorem c2_commit_before_delete
    (fs0 : FS) (pre post : List Video) (r : Video) (fn : Str) (thOk : Bool)
    (outBytes thumbBytes : Bytes)
    (hr : r.filename = fn)
    (hpre : ∀ v ∈ pre, v.filename ≠ fn)
    (hpost : ∀ v ∈ post, v.filename ≠ fn)
    (hmp4 : mp4Ext.isSuffixOf fn = false)
    (hinv : ∀ v ∈ pre ++ r :: post, v.filename ∈ fsNames fs0) :
    (∀ p ∈ process_video ⟨fs0, pre ++ r :: post⟩ fn true thOk outBytes thumbBytes,
        ∀ v ∈ p.2.db, v.filename ∈ fsNames p.2.fs)
    ∧ (∃ tail,
        (process_video ⟨fs0, pre ++ r :: post⟩ fn true thOk outBytes
            thumbBytes).map Prod.fst
          = WEvent.transcodeRun :: WEvent.commitFilename :: WEvent.unlinkInput :: tail
        ∧ WEvent.commitFilename ∉ tail ∧ WEvent.unlinkInput ∉ tail) := by
  have hupd := dbUpdateFilenameFirst_append pre r post fn (outputName fn) hpre hr
  have hne := outputName_ne fn hmp4
  have hproc : process_video ⟨fs0, pre ++ r :: post⟩ fn true thOk outBytes thumbBytes
      = (WEvent.transcodeRun, ⟨fs0 ++ [(outputName fn, outBytes)], pre ++ r :: post⟩)
        :: (WEvent.commitFilename, ⟨fs0 ++ [(outputName fn, outBytes)],
            pre ++ { r with filename := outputName fn } :: post⟩)
        :: (WEvent.unlinkInput, ⟨fsRemove (fs0 ++ [(outputName fn, outBytes)]) fn,
            pre ++ { r with filename := outputName fn } :: post⟩)
        :: thumbPhase ⟨fsRemove (fs0 ++ [(outputName fn, outBytes)]) fn,
            pre ++ { r with filename := outputName fn } :: post⟩
            (outputName fn) thOk thumbBytes := by
    simp only [process_video, hmp4, if_pos, if_true, hupd]
    rfl
  have hinv1 : ∀ v ∈ pre ++ r :: post,
      v.filename ∈ fsNames (fs0 ++ [(outputName fn, outBytes)]) :=
    fun v hv => mem_fsNames_append _ _ _ (hinv v hv)
  have hinv2 : ∀ v ∈ pre ++ { r with filename := outputName fn } :: post,
      v.filename ∈ fsNames (fs0 ++ [(outputName fn, outBytes)]) := by
    intro v hv
    rcases List.mem_append.mp hv with h1 | h1
    · exact hinv1 v (List.mem_append.mpr (Or.inl h1))
    · rcases List.mem_cons.mp h1 with h2 | h2
      · subst h2
        unfold fsNames
        rw [List.map_append]
        exact List.mem_append.mpr (Or.inr (by simp))
      · exact hinv1 v (List.mem_append.mpr (Or.inr (List.mem_cons.mpr (Or.inr h2))))
  have hinv3 : ∀ v ∈ pre ++ { r with filename := outputName fn } :: post,
      v.filename ∈ fsNames (fsRemove (fs0 ++ [(outputName fn, outBytes)]) fn) := by
    intro v hv
    have hne2 : v.filename ≠ fn := by
      rcases List.mem_append.mp hv with h1 | h1
      · exact hpre v h1
      · rcases List.mem_cons.mp h1 with h2 | h2
        · subst h2
          exact hne
        · exact hpost v h2
    exact mem_fsNames_fsRemove _ _ _ hne2 (hinv2 v hv)
  constructor
  · intro p hp
    rw [hproc] at hp
    rcases List.mem_cons.mp hp with h1 | hp
    · subst h1; exact hinv1
    rcases List.mem_cons.mp hp with h1 | hp
    · subst h1; exact hinv2
    rcases List.mem_cons.mp hp with h1 | hp
    · subst h1; exact hinv3
    · exact thumbPhase_invariant _ _ _ _ hinv3 p hp
  · refine ⟨(thumbPhase ⟨fsRemove (fs0 ++ [(outputName fn, outBytes)]) fn,
        pre ++ { r with filename := outputName fn } :: post⟩
        (outputName fn) thOk thumbBytes).map Prod.fst, ?_, ?_, ?_⟩
    · rw [hproc]
      simp
    · intro hmem
      rcases thumbPhase_events _ _ _ _ _ hmem with h | h
      · exact WEvent.noConfusion h
      · exact WEvent.noConfusion h
    · intro hmem
      rcases thumbPhase_events _ _ _ _ _ hmem with h | h
      · exact WEvent.noConfusion h
      · exact WEvent.noConfusion h

/-- Witness for C2: one record named `a.avi`, whose file exists, transcoded
successfully with the thumbnail subprocess failing. -/
theorem c2_commit_before_delete_witness :
    (∀ p ∈ process_video
        ⟨[("a.avi".toList, [1])],
          [{ id := 1, title := "t", filename := "a.avi".toList, owner_id := 1,
             created_at := 0, updated_at := 0 }]⟩
        "a.avi".toList true false [2] [3],
        ∀ v ∈ p.2.db, v.filename ∈ fsNames p.2.fs)
    ∧ (∃ tail,
        (process_video
          ⟨[("a.avi".toList, [1])],
            [{ id := 1, title := "t", filename := "a.avi".toList, owner_id := 1,
               created_at := 0, updated_at := 0 }]⟩
          "a.avi".toList true false [2] [3]).map Prod.fst
          = WEvent.transcodeRun :: WEvent.commitFilename :: WEvent.unlinkInput :: tail
        ∧ WEvent.commitFilename ∉ tail ∧ WEvent.unlinkInput ∉ tail) :=
  c2_commit_before_delete [("a.avi".toList, [1])] []
    [] { id := 1, title := "t", filename := "a.avi".toList, owner_id := 1,
         created_at := 0, updated_at := 0 }
    "a.avi".toList false [2] [3] rfl (by simp) (by simp) (by decide) (by decide)

theorem video_set_same_filename (r : Video) (x : Str) (t? : Option Str)
    (h : r.filename = x) :
    ({ r with filename := x, thumbnail_filename := t? } : Video)
      = { r with thumbnail_filename := t? } := by
  cases r
  simp_all

theorem video_set_same_thumb (r : Video) (h : r.thumbnail_filename = none) :
    ({ r with thumbnail_filename := none } : Video) = r := by
  cases r
  simp_all

theorem thumbPhase_found_unset (st : WState) (outFn : Str) (thOk : Bool)
    (tb : Bytes) (w : Video)
    (hfind : st.db.find? (fun v => v.filename == outFn) = some w)
    (hth : w.thumbnail_filename = none) :
    thumbPhase st outFn thOk tb
      = if thOk then
          [(WEvent.thumbRun, ⟨st.fs ++ [(autoThumbName outFn, tb)], st.db⟩),
           (WEvent.commitThumbnail, ⟨st.fs ++ [(autoThumbName outFn, tb)],
             dbSetThumbFirst st.db outFn (autoThumbName outFn)⟩)]
        else [(WEvent.thumbRun, st)] := by
  simp only [thumbPhase, hfind, hth]
  simp

theorem process_video_transcode_eq
    (fs0 : FS) (pre post : List Video) (r : Video) (fn : Str) (thOk : Bool)
    (outBytes thumbBytes : Bytes)
    (hr : r.filename = fn)
    (hpre : ∀ v ∈ pre, v.filename ≠ fn)
    (hmp4 : mp4Ext.isSuffixOf fn = false) :
    process_video ⟨fs0, pre ++ r :: post⟩ fn true thOk outBytes thumbBytes
      = (WEvent.transcodeRun, ⟨fs0 ++ [(outputName fn, outBytes)], pre ++ r :: post⟩)
        :: (WEvent.commitFilename, ⟨fs0 ++ [(outputName fn, outBytes)],
            pre ++ { r with filename := outputName fn } :: post⟩)
        :: (WEvent.unlinkInput, ⟨fsRemove (fs0 ++ [(outputName fn, outBytes)]) fn,
            pre ++ { r with filename := outputName fn } :: post⟩)
        :: thumbPhase ⟨fsRemove (fs0 ++ [(outputName fn, outBytes)]) fn,
            pre ++ { r with filename := outputName fn } :: post⟩
            (outputName fn) thOk thumbBytes := by
  have hupd := dbUpdateFilenameFirst_append pre r post fn (outputName fn) hpre hr
  simp only [process_video, hmp4, if_pos, if_true, hupd]
  rfl

theorem runProcessVideo_eq (st : WState) (fn : Str) (tOk thOk : Bool)
    (oB tB : Bytes) (tr : List (WEvent × WState)) (p : WEvent × WState)
    (h : process_video st fn tOk thOk oB tB = tr) (hl : tr.getLast? = some p) :
    runProcessVideo st fn tOk thOk oB tB = p.2 := by
  unfold runProcessVideo
  rw [h, hl]

/-- C6 counterexample: a job whose record has no thumbnail and whose
transcode subprocess fails: the worker returns early, the frame-extraction
subprocess is never invoked, and the record keeps no thumbnail — refuting
the claim that the thumbnail step is attempted regardless of the transcode
outcome. -/
theorem c6_thumbnail_skipped_counterexample :
    WEvent.thumbRun ∉
      (process_video
        ⟨[("b.avi".toList, [1])],
          [{ id := 2, title := "t", filename := "b.avi".toList, owner_id := 1,
             created_at := 0, updated_at := 0 }]⟩
        "b.avi".toList false true [2] [3]).map Prod.fst
    ∧ (runProcessVideo
        ⟨[("b.avi".toList, [1])],
          [{ id := 2, title := "t", filename := "b.avi".toList, owner_id := 1,
             created_at := 0, updated_at := 0 }]⟩
        "b.avi".toList false true [2] [3]).db
      = [{ id := 2, title := "t", filename := "b.avi".toList, owner_id := 1,
           created_at := 0, updated_at := 0 }] := by
  constructor <;> decide

/-- C6 amended: the thumbnail step runs exactly when the record found under
the output filename has no thumbnail AND the transcode step was skipped
(input already mp4) or succeeded.  When the transcode subprocess fails the
worker returns early with no state change and the thumbnail step is not
attempted.  When it does run, thumbnail success sets `thumbnail_filename` to
the generated name and thumbnail failure leaves it unset, without failing
the job. -/
theorem c6_thumbnail_gated_on_transcode
    (fs0 : FS) (pre post : List Video) (r : Video) (fn : Str) (thOk : Bool)
    (outBytes thumbBytes : Bytes)
    (hr : r.filename = fn)
    (hth : r.thumbnail_filename = none)
    (hpre : ∀ v ∈ pre, v.filename ≠ fn)
    (hpreOut : ∀ v ∈ pre, v.filename ≠ outputName fn)
    (houtfn : mp4Ext.isSuffixOf fn = true → outputName fn = fn) :
    (mp4Ext.isSuffixOf fn = false →
      process_video ⟨fs0, pre ++ r :: post⟩ fn false thOk outBytes thumbBytes
        = [(WEvent.transcodeRun, ⟨fs0, pre ++ r :: post⟩)])
    ∧ (∀ tOk : Bool, mp4Ext.isSuffixOf fn = true ∨ tOk = true →
        WEvent.thumbRun ∈
          (process_video ⟨fs0, pre ++ r :: post⟩ fn tOk thOk outBytes
            thumbBytes).map Prod.fst
        ∧ (runProcessVideo ⟨fs0, pre ++ r :: post⟩ fn tOk thOk outBytes
            thumbBytes).db
          = pre ++
            { r with
                filename := outputName fn,
                thumbnail_filename :=
                  if thOk then some (autoThumbName (outputName fn)) else none }
            :: post) := by
  constructor
  · intro hmp4
    simp [process_video, hmp4]
  · intro tOk hor
    cases hmp4t : mp4Ext.isSuffixOf fn with
    | true =>
      have hout := houtfn hmp4t
      have hfind : (pre ++ r :: post).find? (fun v => v.filename == outputName fn)
          = some r :=
        find?_append_first _ pre r post
          (fun v hv => by simp [hpreOut v hv]) (by simp [hr, hout])
      have hproc1 : process_video ⟨fs0, pre ++ r :: post⟩ fn tOk thOk outBytes
          thumbBytes
          = thumbPhase ⟨fs0, pre ++ r :: post⟩ (outputName fn) thOk thumbBytes := by
        simp [process_video, hmp4t]
      have htp := thumbPhase_found_unset ⟨fs0, pre ++ r :: post⟩ (outputName fn)
        thOk thumbBytes r hfind hth
      cases thOk with
      | true =>
        have htr : process_video ⟨fs0, pre ++ r :: post⟩ fn tOk true outBytes
            thumbBytes
            = [(WEvent.thumbRun,
                ⟨fs0 ++ [(autoThumbName (outputName fn), thumbBytes)],
                  pre ++ r :: post⟩),
               (WEvent.commitThumbnail,
                ⟨fs0 ++ [(autoThumbName (outputName fn), thumbBytes)],
                  dbSetThumbFirst (pre ++ r :: post) (outputName fn)
                    (autoThumbName (outputName fn))⟩)] := by
          rw [hproc1, htp]
          rfl
        constructor
        · rw [htr]
          simp
        · rw [runProcessVideo_eq _ _ _ _ _ _ _ _ htr rfl]
          rw [dbSetThumbFirst_append pre r post (outputName fn) _
            (fun v hv => hpreOut v hv) (hr.trans hout.symm)]
          cases r
          simp_all
      | false =>
        have htr : process_video ⟨fs0, pre ++ r :: post⟩ fn tOk false outBytes
            thumbBytes
            = [(WEvent.thumbRun, ⟨fs0, pre ++ r :: post⟩)] := by
          rw [hproc1, htp]
          rfl
        constructor
        · rw [htr]
          simp
        · rw [runProcessVideo_eq _ _ _ _ _ _ _ _ htr rfl]
          cases r
          simp_all
    | false =>
      rcases hor with h | h
      · rw [hmp4t] at h
        exact absurd h (by simp)
      · subst h
        have hproc := process_video_transcode_eq fs0 pre post r fn thOk outBytes
          thumbBytes hr hpre hmp4t
        have hfind3 : (pre ++ { r with filename := outputName fn } :: post).find?
            (fun v => v.filename == outputName fn)
            = some { r with filename := outputName fn } :=
          find?_append_first _ pre _ post
            (fun v hv => by simp [hpreOut v hv]) (by simp)
        have htp := thumbPhase_found_unset
          ⟨fsRemove (fs0 ++ [(outputName fn, outBytes)]) fn,
            pre ++ { r with filename := outputName fn } :: post⟩
          (outputName fn) thOk thumbBytes { r with filename := outputName fn }
          hfind3 hth
        cases thOk with
        | true =>
          have htr : process_video ⟨fs0, pre ++ r :: post⟩ fn true true outBytes
              thumbBytes
              = [(WEvent.transcodeRun,
                  ⟨fs0 ++ [(outputName fn, outBytes)], pre ++ r :: post⟩),
                 (WEvent.commitFilename,
                  ⟨fs0 ++ [(outputName fn, outBytes)],
                    pre ++ { r with filename := outputName fn } :: post⟩),
                 (WEvent.unlinkInput,
                  ⟨fsRemove (fs0 ++ [(outputName fn, outBytes)]) fn,
                    pre ++ { r with filename := outputName fn } :: post⟩),
                 (WEvent.thumbRun,
                  ⟨fsRemove (fs0 ++ [(outputName fn, outBytes)]) fn
                      ++ [(autoThumbName (outputName fn), thumbBytes)],
                    pre ++ { r with filename := outputName fn } :: post⟩),
                 (WEvent.commitThumbnail,
                  ⟨fsRemove (fs0 ++ [(outputName fn, outBytes)]) fn
                      ++ [(autoThumbName (outputName fn), thumbBytes)],
                    dbSetThumbFirst
                      (pre ++ { r with filename := outputName fn } :: post)
                      (outputName fn) (autoThumbName (outputName fn))⟩)] := by
            rw [hproc, htp]
            rfl
          constructor
          · rw [htr]
            simp
          · rw [runProcessVideo_eq _ _ _ _ _ _ _ _ htr rfl]
            rw [dbSetThumbFirst_append pre _ post (outputName fn) _
              (fun v hv => hpreOut v hv) rfl]
            cases r
            simp_all
        | false =>
          have htr : process_video ⟨fs0, pre ++ r :: post⟩ fn true false outBytes
              thumbBytes
              = [(WEvent.transcodeRun,
                  ⟨fs0 ++ [(outputName fn, outBytes)], pre ++ r :: post⟩),
                 (WEvent.commitFilename,
                  ⟨fs0 ++ [(outputName fn, outBytes)],
                    pre ++ { r with filename := outputName fn } :: post⟩),
                 (WEvent.unlinkInput,
                  ⟨fsRemove (fs0 ++ [(outputName fn, outBytes)]) fn,
                    pre ++ { r with filename := outputName fn } :: post⟩),
                 (WEvent.thumbRun,
                  ⟨fsRemove (fs0 ++ [(outputName fn, outBytes)]) fn,
                    pre ++ { r with filename := outputName fn } :: post⟩)] := by
            rw [hproc, htp]
            rfl
          constructor
          · rw [htr]
            simp
          · rw [runProcessVideo_eq _ _ _ _ _ _ _ _ htr rfl]
            cases r
            simp_all

/-- Witness for the amended C6: transcode failure skips the thumbnail step;
with transcode success the thumbnail is generated and committed. -/
theorem c6_thumbnail_gated_on_transcode_witness :
    process_video
        ⟨[("c.avi".toList, [1])],
          [{ id := 5, title := "w", filename := "c.avi".toList, owner_id := 1,
             created_at := 0, updated_at := 0 }]⟩
        "c.avi".toList false true [2] [3]
      = [(WEvent.transcodeRun,
          ⟨[("c.avi".toList, [1])],
            [{ id := 5, title := "w", filename := "c.avi".toList, owner_id := 1,
               created_at := 0, updated_at := 0 }]⟩)]
    ∧ (WEvent.thumbRun ∈
        (process_video
          ⟨[("c.avi".toList, [1])],
            [{ id := 5, title := "w", filename := "c.avi".toList, owner_id := 1,
               created_at := 0, updated_at := 0 }]⟩
          "c.avi".toList true true [2] [3]).map Prod.fst
       ∧ (runProcessVideo
          ⟨[("c.avi".toList, [1])],
            [{ id := 5, title := "w", filename := "c.avi".toList, owner_id := 1,
               created_at := 0, updated_at := 0 }]⟩
          "c.avi".toList true true [2] [3]).db
        = [{ id := 5, title := "w", filename := "c.mp4".toList,
             thumbnail_filename := some "c_auto.jpg".toList, owner_id := 1,
             created_at := 0, updated_at := 0 }]) :=
  ⟨(c6_thumbnail_gated_on_transcode [("c.avi".toList, [1])] [] []
      { id := 5, title := "w", filename := "c.avi".toList, owner_id := 1,
        created_at := 0, updated_at := 0 }
      "c.avi".toList true [2] [3] rfl rfl (by simp) (by simp) (by decide)).1
      (by decide),
   (c6_thumbnail_gated_on_transcode [("c.avi".toList, [1])] [] []
      { id := 5, title := "w", filename := "c.avi".toList, owner_id := 1,
        created_at := 0, updated_at := 0 }
      "c.avi".toList true [2] [3] rfl rfl (by simp) (by simp) (by decide)).2
      true (Or.inr rfl)⟩

theorem dbGet_filter_ne (db : List Video) (vid : Nat) :
    dbGet (db.filter (fun w => w.id != vid)) vid = none := by
  unfold dbGet
  rw [List.find?_eq_none]
  intro x hx
  have h2 := (List.mem_filter.mp hx).2
  simp only [bne_iff_ne, ne_eq] at h2
  simp [h2]

theorem fsGet_fsRemove_self (fs : FS) (fn : Str) :
    fsGet (fsRemove fs fn) fn = none := by
  unfold fsGet fsRemove
  have h : (fs.filter (fun p => p.1 != fn)).find? (fun p => p.1 == fn) = none := by
    rw [List.find?_eq_none]
    intro x hx
    have h2 := (List.mem_filter.mp hx).2
    simp only [bne_iff_ne, ne_eq] at h2
    simp [h2]
  rw [h]
  rfl

theorem find?_key_filter_ne : ∀ (fs : FS) (t fn : Str), t ≠ fn →
    (fs.filter (fun p => p.1 != fn)).find? (fun p => p.1 == t)
      = fs.find? (fun p => p.1 == t)
  | [], _, _, _ => rfl
  | p :: rest, t, fn, h => by
    cases hp : (p.1 != fn) with
    | false =>
      have hp2 : p.1 = fn := by
        have h3 := hp
        simp only [bne_eq_false_iff_eq] at h3
        exact h3
      have hq : (p.1 == t) = false := by
        rw [hp2]
        exact beq_eq_false_iff_ne.mpr (fun he => h he.symm)
      simp only [List.filter_cons, hp, Bool.false_eq_true, if_false,
        List.find?_cons, hq]
      exact find?_key_filter_ne rest t fn h
    | true =>
      simp only [List.filter_cons, hp, if_true, List.find?_cons]
      cases hq : (p.1 == t) with
      | true => simp only [hq]
      | false =>
        simp only [hq]
        exact find?_key_filter_ne rest t fn h

theorem fsGet_fsRemove_ne (fs : FS) (t fn : Str) (h : t ≠ fn) :
    fsGet (fsRemove fs fn) t = fsGet fs t := by
  unfold fsGet fsRemove
  rw [find?_key_filter_ne fs t fn h]

/-- C8 counterexample: deleting a video whose record carries both a video
artifact and a thumbnail artifact removes only the video file; the
thumbnail blob the record references survives on disk, refuting the claim
that every referenced blob is removed. -/
theorem c8_thumbnail_not_deleted_counterexample :
    (delete_video_by_id
        [{ id := 7, title := "t", filename := "a.mp4".toList,
           thumbnail_filename := some "t.jpg".toList, owner_id := 1,
           created_at := 0, updated_at := 0 }]
        [("a.mp4".toList, [1]), ("t.jpg".toList, [2])] 7 ⟨1, false⟩).1
      = DeleteResult.ok
    ∧ (delete_video_by_id
        [{ id := 7, title := "t", filename := "a.mp4".toList,
           thumbnail_filename := some "t.jpg".toList, owner_id := 1,
           created_at := 0, updated_at := 0 }]
        [("a.mp4".toList, [1]), ("t.jpg".toList, [2])] 7 ⟨1, false⟩).2.2
      = [("t.jpg".toList, [2])] := by
  constructor <;> decide

/-- C8 amended: an authorized delete of an existing video removes the
metadata record and best-effort-deletes the video artifact (a missing file
is not an error: no existence hypothesis is needed and the record is still
removed), while a referenced thumbnail artifact distinct from the video
artifact is never deleted; unrelated records survive. -/
theorem c8_delete_record_and_video_blob (db : List Video) (fs : FS) (vid : Nat)
    (user : AuthUser) (v : Video)
    (hv : dbGet db vid = some v)
    (hauth : v.owner_id = user.id ∨ user.is_superuser = true) :
    (delete_video_by_id db fs vid user).1 = DeleteResult.ok
    ∧ dbGet (delete_video_by_id db fs vid user).2.1 vid = none
    ∧ fsGet (delete_video_by_id db fs vid user).2.2 v.filename = none
    ∧ (∀ t, v.thumbnail_filename = some t → t ≠ v.filename →
        fsGet (delete_video_by_id db fs vid user).2.2 t = fsGet fs t)
    ∧ (∀ w ∈ db, w.id ≠ vid → w ∈ (delete_video_by_id db fs vid user).2.1) := by
  have hcond : ¬(v.owner_id ≠ user.id ∧ user.is_superuser = false) := by
    rcases hauth with h | h
    · exact fun hc => hc.1 h
    · exact fun hc => by rw [h] at hc; exact Bool.noConfusion hc.2
  have hdel : delete_video_by_id db fs vid user
      = (DeleteResult.ok, db.filter (fun w => w.id != vid),
          fsRemove fs v.filename) := by
    simp only [delete_video_by_id, hv]
    rw [if_neg hcond]
  rw [hdel]
  refine ⟨rfl, dbGet_filter_ne db vid, fsGet_fsRemove_self fs v.filename, ?_, ?_⟩
  · intro t ht hne
    exact fsGet_fsRemove_ne fs t v.filename hne
  · intro w hw hne
    exact List.mem_filter.mpr ⟨hw, by simp [hne]⟩

/-- Witness for the amended C8: a concrete delete removing the record and
video file, leaving the thumbnail blob and an unrelated record intact. -/
theorem c8_delete_record_and_video_blob_witness :
    (delete_video_by_id
        [{ id := 8, title := "t", filename := "e.mp4".toList,
           thumbnail_filename := some "x.jpg".toList, owner_id := 2,
           created_at := 0, updated_at := 0 },
         { id := 9, title := "u", filename := "f.mp4".toList, owner_id := 3,
           created_at := 0, updated_at := 0 }]
        [("e.mp4".toList, [1]), ("x.jpg".toList, [2]), ("f.mp4".toList, [3])]
        8 ⟨2, false⟩).1 = DeleteResult.ok
    ∧ dbGet (delete_video_by_id
        [{ id := 8, title := "t", filename := "e.mp4".toList,
           thumbnail_filename := some "x.jpg".toList, owner_id := 2,
           created_at := 0, updated_at := 0 },
         { id := 9, title := "u", filename := "f.mp4".toList, owner_id := 3,
           created_at := 0, updated_at := 0 }]
        [("e.mp4".toList, [1]), ("x.jpg".toList, [2]), ("f.mp4".toList, [3])]
        8 ⟨2, false⟩).2.1 8 = none
    ∧ fsGet (delete_video_by_id
        [{ id := 8, title := "t", filename := "e.mp4".toList,
           thumbnail_filename := some "x.jpg".toList, owner_id := 2,
           created_at := 0, updated_at := 0 },
         { id := 9, title := "u", filename := "f.mp4".toList, owner_id := 3,
           created_at := 0, updated_at := 0 }]
        [("e.mp4".toList, [1]), ("x.jpg".toList, [2]), ("f.mp4".toList, [3])]
        8 ⟨2, false⟩).2.2 "e.mp4".toList = none
    ∧ fsGet (delete_video_by_id
        [{ id := 8, title := "t", filename := "e.mp4".toList,
           thumbnail_filename := some "x.jpg".toList, owner_id := 2,
           created_at := 0, updated_at := 0 },
         { id := 9, title := "u", filename := "f.mp4".toList, owner_id := 3,
           created_at := 0, updated_at := 0 }]
        [("e.mp4".toList, [1]), ("x.jpg".toList, [2]), ("f.mp4".toList, [3])]
        8 ⟨2, false⟩).2.2 "x.jpg".toList
      = fsGet [("e.mp4".toList, [1]), ("x.jpg".toList, [2]),
          ("f.mp4".toList, [3])] "x.jpg".toList
    ∧ { id := 9, title := "u", filename := "f.mp4".toList, owner_id := 3,
        created_at := 0, updated_at := 0 }
      ∈ (delete_video_by_id
        [{ id := 8, title := "t", filename := "e.mp4".toList,
           thumbnail_filename := some "x.jpg".toList, owner_id := 2,
           created_at := 0, updated_at := 0 },
         { id := 9, title := "u", filename := "f.mp4".toList, owner_id := 3,
           created_at := 0, updated_at := 0 }]
        [("e.mp4".toList, [1]), ("x.jpg".toList, [2]), ("f.mp4".toList, [3])]
        8 ⟨2, false⟩).2.1 :=
  by
  have h := c8_delete_record_and_video_blob
    [{ id := 8, title := "t", filename := "e.mp4".toList,
       thumbnail_filename := some "x.jpg".toList, owner_id := 2,
       created_at := 0, updated_at := 0 },
     { id := 9, title := "u", filename := "f.mp4".toList, owner_id := 3,
       created_at := 0, updated_at := 0 }]
    [("e.mp4".toList, [1]), ("x.jpg".toList, [2]), ("f.mp4".toList, [3])]
    8 ⟨2, false⟩
    { id := 8, title := "t", filename := "e.mp4".toList,
      thumbnail_filename := some "x.jpg".toList, owner_id := 2,
      created_at := 0, updated_at := 0 }
    rfl (Or.inl rfl)
  exact ⟨h.1, h.2.1, h.2.2.1, h.2.2.2.1 "x.jpg".toList rfl (by decide),
    h.2.2.2.2
      { id := 9, title := "u", filename := "f.mp4".toList, owner_id := 3,
        created_at := 0, updated_at := 0 }
      (by simp) (by decide)⟩

/-- C5 counterexample: an upload with a valid video content type but an
invalid thumbnail content type is rejected, yet the video file has already
been written to the blob store — the rejection leaves an orphaned file
(though no metadata record), refuting the claim that a rejected upload
leaves no orphaned file. -/
theorem c5_orphan_on_bad_thumbnail_counterexample :
    (upload_video [] [] 0 1 2 3 "T" none none false "video/mp4".toList
        ".avi".toList [9] (some ("text/plain".toList, ".png".toList, [8]))).1
      = UploadResult.invalidThumbnail
    ∧ (upload_video [] [] 0 1 2 3 "T" none none false "video/mp4".toList
        ".avi".toList [9] (some ("text/plain".toList, ".png".toList, [8]))).2.1
      ≠ ([] : FS)
    ∧ (upload_video [] [] 0 1 2 3 "T" none none false "video/mp4".toList
        ".avi".toList [9] (some ("text/plain".toList, ".png".toList, [8]))).2.2
      = ([] : List Video) := by
  refine ⟨?_, ?_, ?_⟩ <;> decide

/-- C5 amended: a non-video content type is rejected before any write (blob
store and metadata store unchanged); a valid video type with a non-image
thumbnail type is rejected with no metadata record created, but only after
the video file has been written, leaving that one orphaned blob. -/
theorem c5_media_type_checks (fs : FS) (db : List Video)
    (now newFileId newRecId ownerId : Nat) (title : String)
    (descr : Option String) (catId : Option Nat) (isPriv : Bool)
    (videoCT videoExt : Str) (videoBytes : Bytes)
    (thumb : Option (Str × Str × Bytes)) (tct tExt : Str) (tBytes : Bytes) :
    (("video/".toList).isPrefixOf videoCT = false →
      upload_video fs db now newFileId newRecId ownerId title descr catId isPriv
        videoCT videoExt videoBytes thumb = (UploadResult.invalidVideo, fs, db))
    ∧ (("video/".toList).isPrefixOf videoCT = true →
      ("image/".toList).isPrefixOf tct = false →
      upload_video fs db now newFileId newRecId ownerId title descr catId isPriv
        videoCT videoExt videoBytes (some (tct, tExt, tBytes))
        = (UploadResult.invalidThumbnail,
            fs ++ [(natToDec newFileId ++ videoExt, videoBytes)], db)) := by
  constructor
  · intro h
    simp only [upload_video, h]
    rfl
  · intro h1 h2
    simp only [upload_video, h1, h2]
    rfl

/-- Witness for the amended C5: a text-typed video stream is rejected with
no writes; a bad thumbnail type is rejected after the video write. -/
theorem c5_media_type_checks_witness :
    upload_video [] [] 0 1 2 3 "T" none none false "text/plain".toList
        ".avi".toList [9] none = (UploadResult.invalidVideo, [], [])
    ∧ upload_video [] [] 0 1 2 3 "T" none none false "video/mp4".toList
        ".avi".toList [9] (some ("text/html".toList, ".png".toList, [8]))
      = (UploadResult.invalidThumbnail,
          [] ++ [(natToDec 1 ++ ".avi".toList, [9])], []) :=
  ⟨(c5_media_type_checks [] [] 0 1 2 3 "T" none none false "text/plain".toList
      ".avi".toList [9] none "x".toList "y".toList []).1 (by decide),
   (c5_media_type_checks [] [] 0 1 2 3 "T" none none false "video/mp4".toList
      ".avi".toList [9] (some ("text/html".toList, ".png".toList, [8]))
      "text/html".toList ".png".toList [8]).2 (by decide) (by decide)⟩

/-- C10 code-bug evidence: no mutation path ever touches the timestamps.
`update_video` (the metadata-update route), the worker's filename commit,
and the worker's thumbnail commit all leave both `created_at` and
`updated_at` of every record exactly as they were — `updated_at` is set
once by its creation default and never refreshed, contradicting the
documented meaning of the field. -/
theorem c10_timestamps_never_refreshed (db : List Video) (vid : Nat)
    (t? d? : Option String) (c? : Option Nat) (old new tn : Str) :
    (update_video db vid t? d? c?).map (fun v => (v.created_at, v.updated_at))
      = db.map (fun v => (v.created_at, v.updated_at))
    ∧ (dbUpdateFilenameFirst db old new).map
        (fun v => (v.created_at, v.updated_at))
      = db.map (fun v => (v.created_at, v.updated_at))
    ∧ (dbSetThumbFirst db old tn).map (fun v => (v.created_at, v.updated_at))
      = db.map (fun v => (v.created_at, v.updated_at)) := by
  refine ⟨?_, ?_, ?_⟩
  · unfold update_video
    rw [List.map_map]
    congr 1
    funext v
    simp only [Function.comp_apply]
    split <;> rfl
  · induction db with
    | nil => rfl
    | cons v rest ih =>
      cases hb : (v.filename == old) with
      | true => simp [dbUpdateFilenameFirst, hb]
      | false =>
        simp only [dbUpdateFilenameFirst, hb, Bool.false_eq_true, if_false,
          List.map_cons]
        rw [ih]
  · induction db with
    | nil => rfl
    | cons v rest ih =>
      cases hb : (v.filename == old) with
      | true => simp [dbSetThumbFirst, hb]
      | false =>
        simp only [dbSetThumbFirst, hb, Bool.false_eq_true, if_false,
          List.map_cons]
        rw [ih]
